import Mathlib

/-!
Shallow embedding of `src/ivendnext_ai_inventory/public/js/currency_utils.js`.

The module-level mutable `currencyCache` is made explicit: every function
takes the cache as an argument and returns the (possibly updated) cache.
The collaborators supplied by the host (`frappe.get_doc`,
`frappe.defaults.get_default`, `frappe.sys_defaults.currency`,
`frappe.format`, `Number.toLocaleString`) are modelled as fields of an
environment record; a call that throws is `Except.error ()`.  JavaScript
string truthiness is non-emptiness; an absent (`undefined`/`null`)
argument is `Option.none`.

A JavaScript bracket read on a plain object is NOT a pure map lookup: on
a miss among the own properties it continues along the prototype chain,
so `(\x7b\x7d)["toString"]` yields the inherited, truthy
`Object.prototype.toString` function.  `objGet` models this faithfully;
it is what the cache check `currencyCache[company]` and the table read
`currency_symbols[currency]` compile to.
-/

/-- The property names of `Object.prototype`: a bracket read of any of
these on a plain object with no own entry of that name yields the
inherited member, which is a function (or, for `__proto__`, an object)
and therefore truthy and not a string. -/
def protoKeys : List String :=
  ["constructor", "hasOwnProperty", "isPrototypeOf", "propertyIsEnumerable",
   "toLocaleString", "toString", "valueOf", "__defineGetter__",
   "__defineSetter__", "__lookupGetter__", "__lookupSetter__", "__proto__"]

/-- A defined value a bracket read on the module's objects can produce:
an own property (always a string here, since only strings are ever
assigned), or a member inherited from `Object.prototype`, named by its
key — truthy and never a string. -/
inductive JsValue where
  | str : String → JsValue
  | inherited : String → JsValue
deriving DecidableEq

/-- `v.isStr` distinguishes actual strings from inherited members. -/
def JsValue.isStr : JsValue → Bool
  | .str _ => true
  | .inherited _ => false

/-- JS string coercion as used by the template literal: a string is
itself; an inherited native member renders as its source text (the
engine's fixed rendering, immaterial to every claim). -/
def jsToString : JsValue → String
  | .str s => s
  | .inherited k => "function " ++ k ++ "() \x7b [native code] \x7d"

/-- Bracket read `obj[k]` on an object whose own string properties are
given by `own`: the own property when present, else the inherited
`Object.prototype` member, else `undefined` (`none`). -/
def objGet (own : String → Option String) (k : String) : Option JsValue :=
  match own k with
  | some v => some (.str v)
  | none => if protoKeys.contains k then some (.inherited k) else none

/-- JS truthiness of a possibly-undefined value: `undefined` and the
empty string are falsy; every inherited member is truthy. -/
def jsTruthy : Option JsValue → Bool
  | some (.str s) => s != ""
  | some (.inherited _) => true
  | none => false

/-- The own properties of the mutable `currencyCache` object: a map from
company name to currency code (`none` = no own entry). -/
def Cache : Type := String → Option String

/-- `currencyCache[k] = v` (JS property assignment creates or overwrites
an own property, shadowing anything inherited). -/
def cacheInsert (cache : Cache) (k v : String) : Cache :=
  fun x => if x = k then some v else cache x

/-- The initial `let currencyCache = {}` state: no own properties. -/
def emptyCache : Cache := fun _ => none

/-- External collaborators of `get_report_currency`:
`getDoc co` models `frappe.get_doc('Company', co)` (error = throw,
`ok none` = falsy document, `ok (some s)` = document whose
`default_currency` field is `s`, where `s = ""` covers a falsy field);
`getDefault` models `frappe.defaults.get_default('currency')`;
`sysCurrency` models `frappe.sys_defaults.currency`. -/
structure Env where
  getDoc : String → Except Unit (Option String)
  getDefault : Except Unit String
  sysCurrency : Except Unit String

/-- The `// Try system default` block: return `frappe.sys_defaults.currency`
if truthy, else the final fallback `'INR'`; a throw is caught. -/
def sysStep (env : Env) (cache : Cache) : JsValue × Cache :=
  match env.sysCurrency with
  | .ok t => if t = "" then (.str "INR", cache) else (.str t, cache)
  | .error _ => (.str "INR", cache)

/-- The `// Try global default currency` block: return
`frappe.defaults.get_default('currency')` if truthy, else continue with
`sysStep`; a throw is caught. -/
def fallbackSteps (env : Env) (cache : Cache) : JsValue × Cache :=
  match env.getDefault with
  | .ok s => if s = "" then sysStep env cache else (.str s, cache)
  | .error _ => sysStep env cache

/-- The `// Try company-specific currency first` block: fetch the company
document; if it and its `default_currency` are truthy, cache and return
the currency; on a throw or a falsy value, continue with the fallbacks. -/
def companyStep (env : Env) (cache : Cache) (co : String) : JsValue × Cache :=
  match env.getDoc co with
  | .ok (some cur) =>
      if cur = "" then fallbackSteps env cache
      else (.str cur, cacheInsert cache co cur)
  | .ok none => fallbackSteps env cache
  | .error _ => fallbackSteps env cache

/-- `get_report_currency(company)`: the cache check
`company && currencyCache[company]` (a bracket read, so an inherited
`Object.prototype` member counts as a truthy hit and is returned), then
the company document, then the global default, then the system default,
then `'INR'`. -/
def get_report_currency (env : Env) (cache : Cache) (company : Option String) :
    JsValue × Cache :=
  match company with
  | some co =>
      if co = "" then fallbackSteps env cache
      else
        match objGet cache co with
        | some (.str v) =>
            if v = "" then companyStep env cache co else (.str v, cache)
        | some (.inherited k) => (.inherited k, cache)
        | none => companyStep env cache co
  | none => fallbackSteps env cache

/-- Spec-side step 1: a cache hit, i.e. an own entry with a truthy value. -/
def cacheHit (cache : Cache) (co : String) : Option String :=
  match cache co with
  | some v => if v = "" then none else some v
  | none => none

/-- Spec-side step 2: the company record's configured default currency,
`none` when retrieval fails or the value is empty. -/
def docCurrency (env : Env) (co : String) : Option String :=
  match env.getDoc co with
  | .ok (some cur) => if cur = "" then none else some cur
  | .ok none => none
  | .error _ => none

/-- Spec-side view of a fallible configuration read: `none` when it fails
or returns empty. -/
def tryRead (r : Except Unit String) : Option String :=
  match r with
  | .ok s => if s = "" then none else some s
  | .error _ => none

/-- Spec-side steps 3-5: global default, else system default, else the
fixed literal `"INR"`. -/
def fallbackCurrency (env : Env) : String :=
  match tryRead env.getDefault with
  | some s => s
  | none =>
      match tryRead env.sysCurrency with
      | some t => t
      | none => "INR"

/-- The resolution algorithm as the specification words it: an ordered
fallback chain of five sources where the first success wins, step 1 is
the cache hit, step 2 stores `company → currency` in the cache on
success, and the remaining steps leave the cache unchanged. -/
def spec_resolve_currency (env : Env) (cache : Cache) (company : Option String) :
    String × Cache :=
  match company with
  | some co =>
      if co = "" then (fallbackCurrency env, cache)
      else
        match cacheHit cache co with
        | some v => (v, cache)
        | none =>
            match docCurrency env co with
            | some cur => (cur, cacheInsert cache co cur)
            | none => (fallbackCurrency env, cache)
  | none => (fallbackCurrency env, cache)

/-- Companies on which the bracket read of the cache behaves as a pure
map lookup: the name is not an `Object.prototype` member, or an own
cache entry shadows the inherited one. -/
def cacheCheckPure (cache : Cache) (company : Option String) : Bool :=
  match company with
  | some k => !(protoKeys.contains k) || (cache k).isSome
  | none => true

/-- Classification of a resolution result: a non-empty string, or — only
for an `Object.prototype` member name with no own cache entry — the
inherited member returned at the cache check. -/
def resultOk (cache : Cache) (company : Option String) : JsValue → Bool
  | .str s => s != ""
  | .inherited k =>
      (company == some k) && protoKeys.contains k && (cache k).isNone

/-- External collaborators of `format_currency_js`: `frappeFormat amt cur`
models `frappe.format(amt, \x7bfieldtype: 'Currency', options: cur\x7d)`
(error = throw); `toLocaleString amt` models `amt.toLocaleString()`.
Amounts are rationals, exact for the JS numbers involved. -/
structure FmtEnv where
  frappeFormat : ℚ → JsValue → Except Unit String
  toLocaleString : ℚ → String

/-- The try/catch body of `format_currency_js`: the external formatter,
or on failure the template literal, which is the string coercion of the
currency value, a space, and the locale rendering of the amount. -/
def formatBody (fenv : FmtEnv) (amount : ℚ) (currency : JsValue) : String :=
  match fenv.frappeFormat amount currency with
  | .ok s => s
  | .error _ => jsToString currency ++ " " ++ fenv.toLocaleString amount

/-- `format_currency_js(amount, currency, company)`: resolve the currency
when the argument is `undefined`/`null`, then format. -/
def format_currency_js (fenv : FmtEnv) (env : Env) (cache : Cache)
    (amount : ℚ) (currency : Option JsValue) (company : Option String) :
    JsValue × Cache :=
  match currency with
  | none =>
      let rc := get_report_currency env cache company
      (.str (formatBody fenv amount rc.1), rc.2)
  | some cur => (.str (formatBody fenv amount cur), cache)

/-- The `currency_symbols` object literal, as the list of its own
entries. -/
def currency_symbols : List (String × String) :=
  [("INR", "₹"), ("USD", "$"), ("EUR", "€"), ("GBP", "£"),
   ("JPY", "¥"), ("CNY", "¥"), ("AUD", "A$"), ("CAD", "C$"),
   ("CHF", "Fr"), ("SGD", "S$"), ("AED", "د.إ"), ("SAR", "﷼")]

/-- `currency_symbols[currency] || currency`: a bracket read of the
(string-coerced) currency on the table object — so an inherited
`Object.prototype` member is a truthy hit — and the currency value
itself when the read is falsy. -/
def symbolLookup (cur : JsValue) : JsValue :=
  match objGet (fun k => currency_symbols.lookup k) (jsToString cur) with
  | some v => if jsTruthy (some v) then v else cur
  | none => cur

/-- `get_currency_symbol(currency, company)`: resolve the currency when
the argument is `undefined`/`null`, then look it up in the symbol table. -/
def get_currency_symbol (env : Env) (cache : Cache)
    (currency : Option JsValue) (company : Option String) : JsValue × Cache :=
  match currency with
  | none =>
      let rc := get_report_currency env cache company
      (symbolLookup rc.1, rc.2)
  | some cur => (symbolLookup cur, cache)

/-- `clear_currency_cache()`: `currencyCache = \x7b\x7d`, a fresh object
with no own properties. -/
def clear_currency_cache (_cache : Cache) : Cache := fun _ => none

/-- The list of results of `n` successive calls of `get_report_currency`,
the cache threaded from call to call, the environment held fixed. -/
def resolve_iter (env : Env) (company : Option String) :
    Nat → Cache → List JsValue
  | 0, _ => []
  | n + 1, cache =>
      (get_report_currency env cache company).1 ::
        resolve_iter env company n (get_report_currency env cache company).2

/-- A concrete environment where every collaborator succeeds:
the company record store always yields `default_currency = "USD"`,
the global default is `"EUR"`, the system default is `"JPY"`. -/
def envA : Env where
  getDoc := fun _ => .ok (some "USD")
  getDefault := .ok "EUR"
  sysCurrency := .ok "JPY"

/-- A concrete environment where every collaborator throws. -/
def envFail : Env where
  getDoc := fun _ => .error ()
  getDefault := .error ()
  sysCurrency := .error ()

/-- A concrete cache holding the single entry `"Acme" → "USD"`. -/
def cacheA : Cache := cacheInsert emptyCache "Acme" "USD"

/-- A concrete cache whose single entry shadows
`Object.prototype.toString`. -/
def cacheShadow : Cache := cacheInsert emptyCache "toString" "USD"

/-- A concrete formatting environment where the external formatter is
unavailable and the locale rendering of `1234.5` uses a thousands
separator. -/
def fmtFail : FmtEnv where
  frappeFormat := fun _ _ => .error ()
  toLocaleString := fun _ => "1,234.5"

lemma fallbackSteps_eq (env : Env) (cache : Cache) :
    fallbackSteps env cache = (.str (fallbackCurrency env), cache) := by
  unfold fallbackSteps sysStep fallbackCurrency tryRead
  cases env.getDefault with
  | ok s =>
      by_cases hs : s = ""
      · simp only [hs, if_true]
        cases env.sysCurrency with
        | ok t => by_cases ht : t = "" <;> simp [ht]
        | error e => simp
      · simp [hs]
  | error e =>
      cases env.sysCurrency with
      | ok t => by_cases ht : t = "" <;> simp [ht]
      | error e2 => simp

lemma companyStep_eq (env : Env) (cache : Cache) (co : String) :
    companyStep env cache co =
      match docCurrency env co with
      | some cur => (.str cur, cacheInsert cache co cur)
      | none => (.str (fallbackCurrency env), cache) := by
  unfold companyStep docCurrency
  cases env.getDoc co with
  | ok od =>
      cases od with
      | some cur =>
          by_cases hc : cur = ""
          · simp [hc, fallbackSteps_eq]
          · simp [hc]
      | none => simp [fallbackSteps_eq]
  | error e => simp [fallbackSteps_eq]

lemma docCurrency_eq_some {env : Env} {co cur : String}
    (h : docCurrency env co = some cur) :
    env.getDoc co = .ok (some cur) ∧ cur ≠ "" := by
  unfold docCurrency at h
  cases hg : env.getDoc co with
  | ok od =>
      rw [hg] at h
      cases od with
      | some c =>
          by_cases hc : c = ""
          · simp [hc] at h
          · simp only [hc, if_false] at h
            cases h
            exact ⟨rfl, hc⟩
      | none => simp at h
  | error e => rw [hg] at h; simp at h

lemma fallbackCurrency_ne_empty (env : Env) : fallbackCurrency env ≠ "" := by
  unfold fallbackCurrency tryRead
  cases env.getDefault with
  | ok s =>
      by_cases hs : s = ""
      · simp only [hs, if_true]
        cases env.sysCurrency with
        | ok t =>
            by_cases ht : t = ""
            · simp only [ht, if_true]
              decide
            · simp [ht]
        | error e => cases e; decide
      · simp [hs]
  | error e =>
      cases e
      cases env.sysCurrency with
      | ok t =>
          by_cases ht : t = ""
          · simp only [ht, if_true]
            decide
          · simp [ht]
      | error e2 => cases e2; decide

lemma objGet_insert (cache : Cache) (co cur : String) :
    objGet (cacheInsert cache co cur) co = some (.str cur) := by
  simp [objGet, cacheInsert]

lemma get_report_currency_eq (env : Env) (cache : Cache)
    (company : Option String) :
    get_report_currency env cache company =
      match company with
      | some co =>
          if co = "" then (.str (fallbackCurrency env), cache)
          else
            match objGet cache co with
            | some (.str v) =>
                if v = "" then
                  match docCurrency env co with
                  | some cur => (.str cur, cacheInsert cache co cur)
                  | none => (.str (fallbackCurrency env), cache)
                else (.str v, cache)
            | some (.inherited k) => (.inherited k, cache)
            | none =>
                match docCurrency env co with
                | some cur => (.str cur, cacheInsert cache co cur)
                | none => (.str (fallbackCurrency env), cache)
      | none => (.str (fallbackCurrency env), cache) := by
  unfold get_report_currency
  cases company with
  | none => simp [fallbackSteps_eq]
  | some co =>
      by_cases hco : co = ""
      · simp [hco, fallbackSteps_eq]
      · simp only [hco, if_false]
        cases objGet cache co with
        | some v =>
            cases v with
            | str s =>
                by_cases hs : s = "" <;> simp [hs, companyStep_eq]
            | inherited k => rfl
        | none => simp [companyStep_eq]

lemma grc_pure_chain (env : Env) (cache : Cache) (company : Option String)
    (h : cacheCheckPure cache company = true) :
    get_report_currency env cache company =
      (.str (spec_resolve_currency env cache company).1,
       (spec_resolve_currency env cache company).2) := by
  rw [get_report_currency_eq]
  unfold spec_resolve_currency
  cases company with
  | none => rfl
  | some co =>
      by_cases hco : co = ""
      · simp [hco]
      · simp only [hco, if_false]
        unfold objGet cacheHit
        cases hc : cache co with
        | some v =>
            by_cases hv : v = ""
            · simp only [hv, if_true]
              cases docCurrency env co <;> rfl
            · simp [hv]
        | none =>
            have hp : protoKeys.contains co = false := by
              simp only [cacheCheckPure] at h
              rw [hc] at h
              simpa using h
            simp only [hp, if_false]
            cases docCurrency env co <;> rfl

lemma objGet_inherited {own : String → Option String} {k j : String}
    (h : objGet own k = some (.inherited j)) :
    j = k ∧ own k = none ∧ protoKeys.contains k = true := by
  unfold objGet at h
  cases ho : own k with
  | some v => rw [ho] at h; simp at h
  | none =>
      rw [ho] at h
      by_cases hp : protoKeys.contains k
      · simp only [hp, if_true, Option.some.injEq, JsValue.inherited.injEq] at h
        subst h
        exact ⟨rfl, rfl, hp⟩
      · rw [if_neg hp] at h
        simp at h

/-- C1 counterexample: at `company = "toString"` on the empty cache the
program returns the inherited `Object.prototype.toString` member at the
cache check, which is none of the five sources of the spec's chain (the
chain would give the company record's `"USD"`). -/
theorem resolve_not_spec_chain_at_proto :
    (get_report_currency envA emptyCache (some "toString")).1 ≠
      JsValue.str (spec_resolve_currency envA emptyCache
        (some "toString")).1 := by decide

/-- C1 amended: whenever the company name is not an unshadowed
`Object.prototype` member (it is not such a member name, or an own cache
entry shadows it), `get_report_currency` is exactly the spec's ordered
fallback chain — cache hit, company record cached on success, global
default, system default, `"INR"` — on both result and cache. -/
theorem get_report_currency_is_spec_chain (env : Env) (cache : Cache)
    (company : Option String) (h : cacheCheckPure cache company = true) :
    get_report_currency env cache company =
      (.str (spec_resolve_currency env cache company).1,
       (spec_resolve_currency env cache company).2) :=
  grc_pure_chain env cache company h

/-- C1 witness: `"Acme"` is no prototype member, so the chain applies. -/
theorem get_report_currency_is_spec_chain_witness :
    cacheCheckPure emptyCache (some "Acme") = true ∧
    get_report_currency envA emptyCache (some "Acme") =
      (.str (spec_resolve_currency envA emptyCache (some "Acme")).1,
       (spec_resolve_currency envA emptyCache (some "Acme")).2) :=
  ⟨by decide,
   get_report_currency_is_spec_chain envA emptyCache (some "Acme") (by decide)⟩

/-- C2 counterexample: `get_report_currency("toString")` on the empty
cache returns the inherited `Object.prototype.toString` member — not a
string at all, let alone a non-empty one. -/
theorem resolve_returns_inherited_member :
    ((get_report_currency envA emptyCache (some "toString")).1).isStr =
      false := by decide

/-- C2 amended: `get_report_currency` is total (so it never propagates an
error) and always returns a truthy value: a non-empty string, except
when the company names an `Object.prototype` member with no own cache
entry, in which case that inherited (truthy, non-string) member is
returned. -/
theorem resolve_result_classified (env : Env) (cache : Cache)
    (company : Option String) :
    resultOk cache company (get_report_currency env cache company).1 =
      true := by
  rw [get_report_currency_eq]
  cases company with
  | none => simp [resultOk, fallbackCurrency_ne_empty env]
  | some co =>
      by_cases hco : co = ""
      · simp [hco, resultOk, fallbackCurrency_ne_empty env]
      · simp only [hco, if_false]
        cases hog : objGet cache co with
        | some v =>
            cases v with
            | str s =>
                by_cases hs : s = ""
                · simp only [hs, if_true]
                  cases hd : docCurrency env co with
                  | some cur =>
                      simp [resultOk, (docCurrency_eq_some hd).2]
                  | none => simp [resultOk, fallbackCurrency_ne_empty env]
                · simp [hs, resultOk]
            | inherited k =>
                obtain ⟨hj, hnone, hp⟩ := objGet_inherited hog
                subst hj
                have hm : k ∈ protoKeys := by simpa using hp
                simp [resultOk, hnone, hp, hm]
        | none =>
            cases hd : docCurrency env co with
            | some cur => simp [resultOk, (docCurrency_eq_some hd).2]
            | none => simp [resultOk, fallbackCurrency_ne_empty env]

/-- C3: once a truthy value is cached for a company key (an own property,
which shadows anything inherited), every call of `get_report_currency`
for that key returns the cached value and leaves the cache unchanged,
whatever the external collaborators now do — in particular even if the
company record's `default_currency` has changed. -/
theorem get_report_currency_cached (env : Env) (cache : Cache)
    (co v : String) (h1 : cache co = some v) (h2 : v ≠ "") (h3 : co ≠ "") :
    get_report_currency env cache (some co) = (.str v, cache) := by
  unfold get_report_currency objGet
  simp [h3, h1, h2]

/-- C3 witness: `cacheA` holds `"Acme" → "USD"`; even with every external
collaborator throwing, the cached value is returned and the cache kept. -/
theorem get_report_currency_cached_witness :
    cacheA "Acme" = some "USD" ∧
    get_report_currency envFail cacheA (some "Acme") = (.str "USD", cacheA) :=
  ⟨by decide, get_report_currency_cached envFail cacheA "Acme" "USD"
    (by decide) (by decide) (by decide)⟩

/-- C4 counterexample: with the global default set to `"EUR"`, the empty
string passed as `currency` is used as-is (yielding the empty symbol),
unlike an absent argument, which is resolved (yielding `"€"`): the claim
that an empty currency argument triggers resolution is false. -/
theorem currency_empty_not_resolved :
    (get_currency_symbol envA emptyCache (some (.str "")) none).1 ≠
      (get_currency_symbol envA emptyCache none none).1 := by decide

/-- C4 amended: when the `currency` argument is absent (`undefined` or
`null`) — though not when it is the empty string — `format_currency_js`
and `get_currency_symbol` behave exactly as if called with the currency
returned by `get_report_currency(company)` and its updated cache. -/
theorem resolve_when_currency_absent (fenv : FmtEnv) (env : Env)
    (cache : Cache) (amount : ℚ) (company : Option String) :
    format_currency_js fenv env cache amount none company =
      format_currency_js fenv env (get_report_currency env cache company).2
        amount (some (get_report_currency env cache company).1) company ∧
    get_currency_symbol env cache none company =
      get_currency_symbol env (get_report_currency env cache company).2
        (some (get_report_currency env cache company).1) company :=
  ⟨rfl, rfl⟩

/-- C5 counterexample: `"toString"` misses the table's own entries, yet
`get_currency_symbol("toString")` returns the inherited
`Object.prototype.toString` member, not the code unchanged: the identity
fallback claimed for every string outside the table is false. -/
theorem symbol_identity_fallback_fails :
    currency_symbols.lookup "toString" = none ∧
    (get_currency_symbol envA emptyCache (some (.str "toString")) none).1 ≠
      JsValue.str "toString" :=
  ⟨by decide, by decide⟩

/-- C5 amended: `get_currency_symbol` is total (never raises); every code
in the fixed table maps to its symbol; a string missing from the table
that names no `Object.prototype` member is returned unchanged; a string
missing from the table that does name one yields the inherited member. -/
theorem get_currency_symbol_table (env : Env) (cache : Cache)
    (company : Option String) :
    (get_currency_symbol env cache (some (.str "INR")) company).1 = .str "₹" ∧
    (get_currency_symbol env cache (some (.str "USD")) company).1 = .str "$" ∧
    (get_currency_symbol env cache (some (.str "EUR")) company).1 = .str "€" ∧
    (get_currency_symbol env cache (some (.str "GBP")) company).1 = .str "£" ∧
    (get_currency_symbol env cache (some (.str "JPY")) company).1 = .str "¥" ∧
    (get_currency_symbol env cache (some (.str "CNY")) company).1 = .str "¥" ∧
    (get_currency_symbol env cache (some (.str "AUD")) company).1 = .str "A$" ∧
    (get_currency_symbol env cache (some (.str "CAD")) company).1 = .str "C$" ∧
    (get_currency_symbol env cache (some (.str "CHF")) company).1 = .str "Fr" ∧
    (get_currency_symbol env cache (some (.str "SGD")) company).1 = .str "S$" ∧
    (get_currency_symbol env cache (some (.str "AED")) company).1 = .str "د.إ" ∧
    (get_currency_symbol env cache (some (.str "SAR")) company).1 = .str "﷼" ∧
    (get_currency_symbol env cache (some (.str "XYZ")) company).1 = .str "XYZ" ∧
    (∀ cur : String, currency_symbols.lookup cur = none →
      protoKeys.contains cur = false →
      (get_currency_symbol env cache (some (.str cur)) company).1 = .str cur) ∧
    ∀ cur : String, currency_symbols.lookup cur = none →
      protoKeys.contains cur = true →
      (get_currency_symbol env cache (some (.str cur)) company).1 =
        .inherited cur := by
  refine ⟨rfl, rfl, rfl, rfl, rfl, rfl, rfl, rfl, rfl, rfl, rfl, rfl, rfl,
    ?_, ?_⟩
  · intro cur h1 h2
    have hm : cur ∉ protoKeys := by simpa using h2
    simp [get_currency_symbol, symbolLookup, objGet, jsToString, h1, h2, hm]
  · intro cur h1 h2
    have hm : cur ∈ protoKeys := by simpa using h2
    simp [get_currency_symbol, symbolLookup, objGet, jsToString, jsTruthy,
      h1, h2, hm]

/-- C5 witness: `"XYZ"` misses the table and is returned unchanged;
`"valueOf"` misses the table but names a prototype member and yields the
inherited member. -/
theorem get_currency_symbol_table_witness :
    (currency_symbols.lookup "XYZ" = none ∧
      protoKeys.contains "XYZ" = false ∧
      (get_currency_symbol envA emptyCache (some (.str "XYZ")) none).1 =
        .str "XYZ") ∧
    currency_symbols.lookup "valueOf" = none ∧
    protoKeys.contains "valueOf" = true ∧
    (get_currency_symbol envA emptyCache (some (.str "valueOf")) none).1 =
      .inherited "valueOf" := by
  obtain ⟨-, -, -, -, -, -, -, -, -, -, -, -, -, hpure, hproto⟩ :=
    get_currency_symbol_table envA emptyCache none
  exact ⟨⟨by decide, by decide, hpure "XYZ" (by decide) (by decide)⟩,
    by decide, by decide, hproto "valueOf" (by decide) (by decide)⟩

/-- C6: `format_currency_js` is total (never raises); when the external
formatter fails, the result is exactly the currency code, a single
space, and the locale rendering of the amount. -/
theorem format_currency_fallback (fenv : FmtEnv) (env : Env) (cache : Cache)
    (amount : ℚ) (cur : String) (company : Option String)
    (h : fenv.frappeFormat amount (.str cur) = .error ()) :
    (format_currency_js fenv env cache amount (some (.str cur)) company).1 =
      .str (cur ++ " " ++ fenv.toLocaleString amount) := by
  simp [format_currency_js, formatBody, jsToString, h]

/-- C6 witness: with the formatter unavailable, formatting `1234.5` as
`"USD"` yields `"USD 1,234.5"`, a string beginning with `"USD "`. -/
theorem format_currency_fallback_witness :
    fmtFail.frappeFormat ((2469 : ℚ) / 2) (.str "USD") = .error () ∧
    (format_currency_js fmtFail envA emptyCache ((2469 : ℚ) / 2)
      (some (.str "USD")) none).1 = .str "USD 1,234.5" :=
  ⟨rfl, (format_currency_fallback fmtFail envA emptyCache ((2469 : ℚ) / 2)
    "USD" none rfl).trans (by decide)⟩

/-- C7 counterexample: `"toString"` was cached (an own entry shadowing the
prototype); after `clear_currency_cache` the entry is gone and the record
fetch would succeed with `"USD"`, yet resolution returns the inherited
member of the fresh empty object without re-running the chain. -/
theorem clear_cache_shadow_not_rerun :
    clear_currency_cache cacheShadow "toString" = none ∧
    envA.getDoc "toString" = .ok (some "USD") ∧
    (get_report_currency envA (clear_currency_cache cacheShadow)
      (some "toString")).1 ≠ JsValue.str "USD" :=
  ⟨rfl, rfl, by decide⟩

/-- C7 amended: `clear_currency_cache` yields the cache with no own
entries; a later resolution for any previously cached company whose name
is not an `Object.prototype` member re-runs the full chain — the record
store is consulted again and its answer re-cached; for a member name the
fresh empty object still yields the truthy inherited read. -/
theorem clear_cache_resets (cache : Cache) :
    (∀ k, clear_currency_cache cache k = none) ∧
    ∀ (env : Env) (co cur : String), co ≠ "" →
      protoKeys.contains co = false →
      env.getDoc co = .ok (some cur) → cur ≠ "" →
      get_report_currency env (clear_currency_cache cache) (some co) =
        (.str cur, cacheInsert (clear_currency_cache cache) co cur) := by
  refine ⟨fun k => rfl, ?_⟩
  intro env co cur h1 hp h2 h3
  have hm : co ∉ protoKeys := by simpa using hp
  unfold get_report_currency objGet clear_currency_cache companyStep
  simp [h1, hp, hm, h2, h3]

/-- C7 witness: clearing `cacheA` empties it; resolving `"Acme"` again
hits the record store of `envA` and returns `"USD"`, freshly cached. -/
theorem clear_cache_resets_witness :
    clear_currency_cache cacheA "Acme" = none ∧
    get_report_currency envA (clear_currency_cache cacheA) (some "Acme") =
      (.str "USD", cacheInsert (clear_currency_cache cacheA) "Acme" "USD") :=
  ⟨(clear_cache_resets cacheA).1 "Acme",
   (clear_cache_resets cacheA).2 envA "Acme" "USD" (by decide) (by decide)
     rfl (by decide)⟩

/-- C8: the only cache mutation `get_report_currency` can perform is
inserting `company → default_currency` on a successful company-record
lookup; on every other path — the truthy cache read included — the cache
is unchanged, and no existing entry is ever removed. -/
theorem resolve_cache_frame (env : Env) (cache : Cache)
    (company : Option String) :
    ((get_report_currency env cache company).2 = cache ∨
      ∃ co cur, company = some co ∧ env.getDoc co = .ok (some cur) ∧
        cur ≠ "" ∧
        (get_report_currency env cache company).2 =
          cacheInsert cache co cur) ∧
    ∀ k v, cache k = some v →
      ((get_report_currency env cache company).2 k).isSome = true := by
  have hmain : (get_report_currency env cache company).2 = cache ∨
      ∃ co cur, company = some co ∧ env.getDoc co = .ok (some cur) ∧
        cur ≠ "" ∧
        (get_report_currency env cache company).2 =
          cacheInsert cache co cur := by
    rw [get_report_currency_eq]
    cases company with
    | none => left; rfl
    | some co =>
        by_cases hco : co = ""
        · left; simp [hco]
        · simp only [hco, if_false]
          cases hog : objGet cache co with
          | some v =>
              cases v with
              | str s =>
                  by_cases hs : s = ""
                  · simp only [hs, if_true]
                    cases hd : docCurrency env co with
                    | some cur =>
                        right
                        obtain ⟨hdoc, hcur⟩ := docCurrency_eq_some hd
                        exact ⟨co, cur, rfl, hdoc, hcur, rfl⟩
                    | none => left; rfl
                  · left
                    simp [hs]
              | inherited k => left; rfl
          | none =>
              cases hd : docCurrency env co with
              | some cur =>
                  right
                  obtain ⟨hdoc, hcur⟩ := docCurrency_eq_some hd
                  exact ⟨co, cur, rfl, hdoc, hcur, rfl⟩
              | none => left; rfl
  refine ⟨hmain, ?_⟩
  intro k v hk
  rcases hmain with h | ⟨co, cur, hcomp, hdoc, hcur, h⟩
  · rw [h, hk]; rfl
  · rw [h]
    unfold cacheInsert
    by_cases hkco : k = co
    · simp [hkco]
    · simp [hkco, hk]

/-- C8 witness: resolving `"Beta"` against `envA` inserts a new entry and
keeps the pre-existing `"Acme"` entry of `cacheA`. -/
theorem resolve_cache_frame_witness :
    cacheA "Acme" = some "USD" ∧
    ((get_report_currency envA cacheA (some "Beta")).2 "Acme").isSome =
      true :=
  ⟨by decide, (resolve_cache_frame envA cacheA (some "Beta")).2 "Acme" "USD"
    (by decide)⟩

lemma resolve_fixpoint (env : Env) (cache : Cache) (company : Option String) :
    get_report_currency env (get_report_currency env cache company).2
        company =
      get_report_currency env cache company := by
  simp only [get_report_currency_eq]
  cases company with
  | none => rfl
  | some co =>
      by_cases hco : co = ""
      · simp [hco]
      · simp only [hco, if_false]
        cases hog : objGet cache co with
        | some v =>
            cases v with
            | str s =>
                by_cases hs : s = ""
                · simp only [hs, if_true]
                  cases hd : docCurrency env co with
                  | some cur =>
                      obtain ⟨hdoc, hcur⟩ := docCurrency_eq_some hd
                      simp [objGet_insert, hcur, hd]
                  | none => simp [hog, hs, hd]
                · simp [hog, hs]
            | inherited k => simp [hog]
        | none =>
            cases hd : docCurrency env co with
            | some cur =>
                obtain ⟨hdoc, hcur⟩ := docCurrency_eq_some hd
                simp [objGet_insert, hcur, hd]
            | none => simp [hog, hd]

/-- C9: with the environment unchanged and no intervening cache clear,
`n` successive calls of `get_report_currency` all return the result of
the first call. -/
theorem resolve_idempotent (env : Env) (cache : Cache)
    (company : Option String) (n : Nat) :
    resolve_iter env company n cache =
      List.replicate n (get_report_currency env cache company).1 := by
  induction n generalizing cache with
  | zero => rfl
  | succ n ih =>
      simp only [resolve_iter, List.replicate]
      rw [ih ((get_report_currency env cache company).2), resolve_fixpoint]

/-- C10: when the `currency` argument is present, `get_currency_symbol`
depends only on that argument: its result is the same for every
environment, cache state and company argument, and the cache is left
untouched. -/
theorem symbol_depends_only_on_currency (env1 env2 : Env)
    (cache1 cache2 : Cache) (co1 co2 : Option String) (c : JsValue) :
    (get_currency_symbol env1 cache1 (some c) co1).1 =
      (get_currency_symbol env2 cache2 (some c) co2).1 ∧
    (get_currency_symbol env1 cache1 (some c) co1).2 = cache1 :=
  ⟨rfl, rfl⟩
